import Mathlib

/-!
Verification of the tag-aggregation subsystem of the Branch dashboard.

The definitions below are a shallow embedding of the SQLite tables and the
tag-related operations of `src/index.ts`.  Tables are lists of row records;
an SQL statement becomes a pure function from table(s) to table(s);
an HTTP handler becomes a function from a database state and a parsed
request body to a response value paired with the successor state.

The repository is mid-transition to a unified fact table (`tags_unified`).
The source snapshot under `src/` predates that transition: it creates only
the legacy per-category tables and the legacy free-form `tags` table, while
the repository documents (MIGRATION_SUMMARY.md, CODE_REVIEW_FINDINGS.md,
UNIFIED_TAG_DESIGN.md) describe the unified table, its two partial unique
indexes, the startup migration routine and the dual-write scan integration.
Definitions for that missing part are modelled from the spec and are marked
`Modelled from the spec:` in their doc comments.  Everything else is
translated directly from `src/index.ts`.
-/

namespace Branch

/-- A row of the `users` table (`src/index.ts`, CREATE TABLE users).
Only the columns read by the tag subsystem are modelled: `id`, `username`,
and the two columns from which `/api/tag` derives its `user_type` value. -/
structure UserRow where
  id : Nat
  username : String
  access_token : Option String
  scanned_by : Option String
deriving DecidableEq

/-- A row of the `repositories` table (`src/index.ts`, CREATE TABLE
repositories); columns not read by any claim (description, url, fork data,
timestamps) are omitted. -/
structure RepoRow where
  id : Nat
  user_id : Nat
  name : String
  language : Option String
  stars : Nat
deriving DecidableEq

/-- A row of the legacy `tech_stack` table (`src/index.ts`, CREATE TABLE
tech_stack, UNIQUE(user_id, technology)).  `updated_at` is modelled as an
abstract tick supplied by the caller. -/
structure TechRow where
  user_id : Nat
  technology : String
  category : String
  repo_count : Nat
  updated_at : Nat
deriving DecidableEq

/-- A row of the legacy `ai_assistance` table (`src/index.ts`, CREATE TABLE
ai_assistance, UNIQUE(user_id, repo_name, ai_tool)). -/
structure AiRow where
  user_id : Nat
  repo_name : String
  ai_tool : String
  mention_count : Nat
  found_in : String
  updated_at : Nat
deriving DecidableEq

/-- A row of the legacy `services` table (`src/index.ts`, CREATE TABLE
services, UNIQUE(user_id, service_name)). -/
structure ServiceRow where
  user_id : Nat
  service_name : String
  repo_count : Nat
  mention_count : Nat
  updated_at : Nat
deriving DecidableEq

/-- A row of the legacy free-form `tags` table (`src/index.ts`, CREATE TABLE
tags, UNIQUE(tagged_by_user_id, tagged_entity_type, tagged_entity_id, tag)). -/
structure TagRow where
  tagged_by_user_id : Nat
  tagged_entity_type : String
  tagged_entity_id : Nat
  tag : String
deriving DecidableEq

/-- Modelled from the spec: a row of the unified fact table `tags_unified`
(spec section 6); this table is created by the deployed `index.ts` but is
absent from the `src/` snapshot.  `confidence` (constant 1.0, "not currently
varied") and `created_at` are not modelled; no claim mentions them. -/
structure UnifiedRow where
  tag_name : String
  entity_type : String
  entity_id : Nat
  source_type : String
  source_user_id : Option Nat
  category : String
  repo_name : Option String
deriving DecidableEq

/-- The database state: one list per table of `src/index.ts`'s schema that
the tag subsystem touches, plus the spec-modelled unified fact table. -/
structure Db where
  users : List UserRow
  repositories : List RepoRow
  tech_stack : List TechRow
  ai_assistance : List AiRow
  services : List ServiceRow
  tags : List TagRow
  tags_unified : List UnifiedRow
deriving DecidableEq

/-- The freshly created database: every table empty, as after the startup
`CREATE TABLE IF NOT EXISTS` statements on a new file. -/
def emptyDb : Db :=
  { users := [], repositories := [], tech_stack := [], ai_assistance := []
    services := [], tags := [], tags_unified := [] }

/-! ### Legacy scan upserts (`/api/scan`, src/index.ts) -/

/-- Whether a `tech_stack` row conflicts with key `(uid, tech)` under
UNIQUE(user_id, technology). -/
abbrev techKey (uid : Nat) (tech : String) (r : TechRow) : Prop :=
  r.user_id = uid ∧ r.technology = tech

/-- The `/api/scan` tech-stack write (src/index.ts lines 681-691):
`INSERT INTO tech_stack ... ON CONFLICT(user_id, technology) DO UPDATE SET
repo_count = excluded.repo_count, updated_at = CURRENT_TIMESTAMP`. -/
def techUpsert (tbl : List TechRow) (uid : Nat) (tech cat : String)
    (cnt now : Nat) : List TechRow :=
  if ∃ r ∈ tbl, techKey uid tech r then
    tbl.map (fun r =>
      if techKey uid tech r then
        { r with repo_count := cnt, updated_at := now }
      else r)
  else
    tbl ++ [{ user_id := uid, technology := tech, category := cat,
              repo_count := cnt, updated_at := now }]

/-- Whether an `ai_assistance` row conflicts with key `(uid, repo, tool)`
under UNIQUE(user_id, repo_name, ai_tool). -/
abbrev aiKey (uid : Nat) (repo tool : String) (r : AiRow) : Prop :=
  r.user_id = uid ∧ r.repo_name = repo ∧ r.ai_tool = tool

/-- The `/api/scan` AI-assistance write (src/index.ts lines 818-824):
`INSERT INTO ai_assistance ... ON CONFLICT(user_id, repo_name, ai_tool)
DO UPDATE SET mention_count = excluded.mention_count, updated_at = ...`.
The scanner always passes `found_in = "README"`. -/
def aiUpsert (tbl : List AiRow) (uid : Nat) (repo tool : String)
    (cnt now : Nat) : List AiRow :=
  if ∃ r ∈ tbl, aiKey uid repo tool r then
    tbl.map (fun r =>
      if aiKey uid repo tool r then
        { r with mention_count := cnt, updated_at := now }
      else r)
  else
    tbl ++ [{ user_id := uid, repo_name := repo, ai_tool := tool,
              mention_count := cnt, found_in := "README", updated_at := now }]

/-- Whether a `services` row conflicts with key `(uid, svc)` under
UNIQUE(user_id, service_name). -/
abbrev svcKey (uid : Nat) (svc : String) (r : ServiceRow) : Prop :=
  r.user_id = uid ∧ r.service_name = svc

/-- The `/api/scan` services write (src/index.ts lines 879-890):
`INSERT INTO services ... ON CONFLICT(user_id, service_name) DO UPDATE SET
repo_count = excluded.repo_count, mention_count = excluded.mention_count,
updated_at = CURRENT_TIMESTAMP`. -/
def servicesUpsert (tbl : List ServiceRow) (uid : Nat) (svc : String)
    (rc mc now : Nat) : List ServiceRow :=
  if ∃ r ∈ tbl, svcKey uid svc r then
    tbl.map (fun r =>
      if svcKey uid svc r then
        { r with repo_count := rc, mention_count := mc, updated_at := now }
      else r)
  else
    tbl ++ [{ user_id := uid, service_name := svc, repo_count := rc,
              mention_count := mc, updated_at := now }]

/-! ### Legacy tag endpoints (src/index.ts) -/

/-- The JS falsiness test `!field` applied to an optional request string:
true when the field is absent or the empty string. -/
def blank : Option String → Prop
  | none => True
  | some s => s = ""

instance : DecidablePred blank := fun o => by
  cases o <;> simp [blank] <;> infer_instance

/-- `SELECT id FROM users WHERE username = ?` followed by reading `.id`:
the id of the first matching user row, if any. -/
def findUserId (db : Db) (name : String) : Option Nat :=
  (db.users.find? (fun u => decide (u.username = name))).map (·.id)

/-- Parsed body of a POST to `/api/add-tag` (src/index.ts lines 1802-1806).
Fields are optional because the handler checks their presence itself. -/
structure AddTagRequest where
  tagged_username : Option String
  tag : Option String
  tagged_by_username : Option String
deriving DecidableEq

/-- Parsed body of a POST to `/api/remove-tag` (src/index.ts lines 1852-1856). -/
structure RemoveTagRequest where
  tagged_username : Option String
  tag : Option String
  logged_in_username : Option String
deriving DecidableEq

/-- The outcomes of the tag mutation endpoints: success with the affected
tag (HTTP 200 `{success: true, tag}`), success of a removal (200
`{success: true}`), missing required fields (400), unknown user (404), or
the no-permission outcome of `/api/remove-tag` (403). -/
inductive TagApiResponse where
  | ok (tag : String)
  | okRemoved
  | missingFields
  | userNotFound
  | forbidden
deriving DecidableEq

/-- The row a matching `/api/add-tag` request inserts: the entity type is
the string literal `'user'` in the SQL (src/index.ts line 1831). -/
def mkLegacyTagRow (bid tid : Nat) (tg : String) : TagRow :=
  { tagged_by_user_id := bid, tagged_entity_type := "user",
    tagged_entity_id := tid, tag := tg }

/-- The `/api/add-tag` handler (src/index.ts lines 1799-1847): reject blank
fields with 400; resolve both usernames, 404 when either is unknown;
otherwise `INSERT INTO tags (tagged_by_user_id, tagged_entity_type,
tagged_entity_id, tag) VALUES (?, 'user', ?, ?) ON CONFLICT DO NOTHING`
and answer `{success: true, tag}` whether or not the insert was ignored. -/
def addTagHandler (db : Db) (req : AddTagRequest) : TagApiResponse × Db :=
  if blank req.tagged_username ∨ blank req.tag ∨ blank req.tagged_by_username then
    (.missingFields, db)
  else
    match findUserId db (req.tagged_username.getD ""),
          findUserId db (req.tagged_by_username.getD "") with
    | some tid, some bid =>
        let tg := req.tag.getD ""
        let row := mkLegacyTagRow bid tid tg
        let newTags := if row ∈ db.tags then db.tags else db.tags ++ [row]
        (.ok tg, { db with tags := newTags })
    | _, _ => (.userNotFound, db)

/-- The WHERE clause of the `/api/remove-tag` DELETE (src/index.ts lines
1879-1885): the row must have been created by the logged-in user and name
the targeted user entity and tag. -/
abbrev removeMatch (lid tid : Nat) (tg : String) (r : TagRow) : Prop :=
  r.tagged_by_user_id = lid ∧ r.tagged_entity_type = "user" ∧
  r.tagged_entity_id = tid ∧ r.tag = tg

/-- The `/api/remove-tag` handler (src/index.ts lines 1849-1906): reject
blank fields with 400; resolve both usernames, 404 when either is unknown;
run the DELETE restricted to rows sourced by the logged-in user; when zero
rows changed answer 403 ("Tag not found or you don't have permission to
remove it"), else `{success: true}`. -/
def removeTagHandler (db : Db) (req : RemoveTagRequest) : TagApiResponse × Db :=
  if blank req.tagged_username ∨ blank req.tag ∨ blank req.logged_in_username then
    (.missingFields, db)
  else
    match findUserId db (req.tagged_username.getD ""),
          findUserId db (req.logged_in_username.getD "") with
    | some tid, some lid =>
        let tg := req.tag.getD ""
        let remaining := db.tags.filter (fun r => decide (¬ removeMatch lid tid tg r))
        if remaining.length = db.tags.length then
          (.forbidden, { db with tags := remaining })
        else
          (.okRemoved, { db with tags := remaining })
    | _, _ => (.userNotFound, db)

/-! ### The `/api/tag` read queries (src/index.ts lines 1908-1984) -/

/-- The users half of `/api/tag`: `SELECT DISTINCT u.username, ... FROM
users u JOIN tags t ON t.tagged_entity_id = u.id AND t.tagged_entity_type =
'user' WHERE t.tag = ? GROUP BY u.id, ...` — one result row per user that
has at least one matching tag row.  The model keeps the user rows in table
order; the projection to response fields and ORDER BY are presentational. -/
def usersForTag (db : Db) (t : String) : List UserRow :=
  db.users.filter (fun u =>
    db.tags.any (fun r =>
      decide (r.tagged_entity_id = u.id ∧ r.tagged_entity_type = "user" ∧ r.tag = t)))

/-- The repositories half of `/api/tag`: `SELECT DISTINCT r.name, ... FROM
repositories r JOIN users u ON r.user_id = u.id WHERE r.language = ? OR
r.user_id IN (SELECT user_id FROM tech_stack WHERE technology = ?)`.
Note the WHERE clause never consults the `tags` table: it matches a repo by
its primary-language column or by its owner having the technology in
`tech_stack`. -/
def reposForTag (db : Db) (t : String) : List RepoRow :=
  db.repositories.filter (fun r =>
    db.users.any (fun u => decide (u.id = r.user_id)) &&
    (decide (r.language = some t) ||
      db.tech_stack.any (fun ts =>
        decide (ts.user_id = r.user_id ∧ ts.technology = t))))

/-! ### Spec-modelled unified fact store

The deployed `index.ts` creates `tags_unified` with two partial unique
indexes and a startup migration routine (`migrateToUnifiedTags`); that code
is absent from the `src/` snapshot, so the definitions below are modelled
from the spec (sections 3, 4.1-4.3, 6). -/

/-- Modelled from the spec: the conflict relation induced by the two
partial unique indexes of `tags_unified` — `(tag_name, entity_type,
entity_id)` where `repo_name IS NULL` and `(tag_name, entity_type,
entity_id, repo_name)` where `repo_name IS NOT NULL`.  Two rows conflict
exactly when the triple matches and the `repo_name` columns are both null
or both the same non-null name, i.e. when the four fields agree under
`Option` equality. -/
abbrev uconf (a b : UnifiedRow) : Prop :=
  a.tag_name = b.tag_name ∧ a.entity_type = b.entity_type ∧
  a.entity_id = b.entity_id ∧ a.repo_name = b.repo_name

/-- Modelled from the spec: `INSERT OR IGNORE` into `tags_unified` — the
row is appended unless a row conflicting on one of the two partial unique
indexes is already present, in which case the insert is silently skipped
(spec section 4.1: "any insert violating a uniqueness constraint is
silently skipped"). -/
def insertOrIgnore (tbl : List UnifiedRow) (r : UnifiedRow) : List UnifiedRow :=
  if ∃ x ∈ tbl, uconf x r then tbl else tbl ++ [r]

/-- Modelled from the spec (section 4.1): the unified fact copied from one
`tech_stack` legacy row — `entity_type = user`, the owning user id,
the legacy row's category, `repo_name = null`, `source_type = system`. -/
def techFact (r : TechRow) : UnifiedRow :=
  { tag_name := r.technology, entity_type := "user", entity_id := r.user_id,
    source_type := "system", source_user_id := none, category := r.category,
    repo_name := none }

/-- Modelled from the spec (section 4.1): the repo-level unified fact copied
from one `ai_assistance` legacy row — `entity_type = repo`, `entity_id` =
the owning user's id (not any repository's own id), `repo_name` = the
legacy row's repository name, `category = ai_tool`, `source_type = system`. -/
def aiRepoFact (r : AiRow) : UnifiedRow :=
  { tag_name := r.ai_tool, entity_type := "repo", entity_id := r.user_id,
    source_type := "system", source_user_id := none, category := "ai_tool",
    repo_name := some r.repo_name }

/-- Modelled from the spec (section 4.1): the user-level aggregate fact for
one `ai_assistance` legacy row — one such fact per distinct AI tool per
user after deduplication. -/
def aiUserFact (r : AiRow) : UnifiedRow :=
  { tag_name := r.ai_tool, entity_type := "user", entity_id := r.user_id,
    source_type := "system", source_user_id := none, category := "ai_tool",
    repo_name := none }

/-- Modelled from the spec (section 4.1): the user-level unified fact copied
from one `services` legacy row. -/
def serviceFact (r : ServiceRow) : UnifiedRow :=
  { tag_name := r.service_name, entity_type := "user", entity_id := r.user_id,
    source_type := "system", source_user_id := none, category := "service",
    repo_name := none }

/-- Modelled from the spec (section 4.1): the unified fact copied from one
legacy free-form `tags` row — `category = user_tag`, `source_type = user`,
`source_user_id` = the legacy tagger's id, preserving the legacy row's
entity type and id; the legacy table has no repository column, so
`repo_name = null`. -/
def legacyTagFact (r : TagRow) : UnifiedRow :=
  { tag_name := r.tag, entity_type := r.tagged_entity_type,
    entity_id := r.tagged_entity_id, source_type := "user",
    source_user_id := some r.tagged_by_user_id, category := "user_tag",
    repo_name := none }

/-- Modelled from the spec (section 4.1): the full list of facts the
migration derives from the legacy tables, in the spec's order — the
language/framework table, the AI-tool table at repo level, the per-user
distinct AI-tool aggregates, the hosting-service table, and the free-form
tag table. -/
def migrationRows (db : Db) : List UnifiedRow :=
  db.tech_stack.map techFact ++
  db.ai_assistance.map aiRepoFact ++
  (db.ai_assistance.map aiUserFact).dedup ++
  db.services.map serviceFact ++
  db.tags.map legacyTagFact

/-- Modelled from the spec (section 4.1): the startup migration routine.
Guard: if the unified table already contains any row with `source_type =
system`, skip entirely; otherwise insert every derived fact with
insert-or-ignore semantics.  Legacy tables are read-only during migration. -/
def migrateToUnifiedTags (db : Db) : Db :=
  if ∃ r ∈ db.tags_unified, r.source_type = "system" then db
  else { db with tags_unified := (migrationRows db).foldl insertOrIgnore db.tags_unified }

/-- Modelled from the spec (section 4.3): the row `addTag` inserts —
`source_type = user`, `source_user_id` = the tagger, category `user_tag`. -/
def mkUserFact (t etype : String) (eid : Nat) (repo : Option String)
    (tagger : Nat) : UnifiedRow :=
  { tag_name := t, entity_type := etype, entity_id := eid,
    source_type := "user", source_user_id := some tagger,
    category := "user_tag", repo_name := repo }

/-- Modelled from the spec (section 4.3): `addTag` — insert with
insert-or-ignore semantics; a conflicting insert is a no-op signaled as
success (`true`), not an error. -/
def addTagU (tbl : List UnifiedRow) (t etype : String) (eid : Nat)
    (repo : Option String) (tagger : Nat) : List UnifiedRow × Bool :=
  (insertOrIgnore tbl (mkUserFact t etype eid repo tagger), true)

/-- Modelled from the spec (section 4.3): the row `removeTag` deletes —
the key must match and the row's `source_user_id` must equal the
requester. -/
abbrev removeMatchU (t etype : String) (eid : Nat) (repo : Option String)
    (requester : Nat) (r : UnifiedRow) : Prop :=
  r.tag_name = t ∧ r.entity_type = etype ∧ r.entity_id = eid ∧
  r.repo_name = repo ∧ r.source_user_id = some requester

/-- Modelled from the spec (section 4.3): `removeTag` — delete only the row
sourced by the requester; the Boolean reports whether a row was deleted
(false is the PermissionDenied-style outcome: the fact remains). -/
def removeTagU (tbl : List UnifiedRow) (t etype : String) (eid : Nat)
    (repo : Option String) (requester : Nat) : List UnifiedRow × Bool :=
  let remaining := tbl.filter (fun r => decide (¬ removeMatchU t etype eid repo requester r))
  (remaining, decide (remaining.length ≠ tbl.length))

/-- Modelled from the spec (section 4.3): whether renaming row `r` to
`n` would collide with an existing row already carrying tag `n` on the
same entity and repo scope. -/
abbrev renameCollides (tbl : List UnifiedRow) (n : String) (r : UnifiedRow) : Prop :=
  ∃ x ∈ tbl, x.tag_name = n ∧ x.entity_type = r.entity_type ∧
    x.entity_id = r.entity_id ∧ x.repo_name = r.repo_name

/-- Modelled from the spec (section 4.3): `renameTag` — update `tag_name`
across all rows carrying the old name; a row whose renaming would collide
with an existing new-name row is dropped in favor of that row
(merge-by-drop), not left duplicated. -/
def renameTagU (tbl : List UnifiedRow) (o n : String) : List UnifiedRow :=
  tbl.filterMap (fun r =>
    if r.tag_name = o then
      if renameCollides tbl n r then none else some { r with tag_name := n }
    else some r)

/-! ### Spec-modelled dual-write scan integration (spec section 4.2)

The legacy half of each write is the upsert of `src/index.ts`; the unified
half is modelled from the spec: the same fact is written to `tags_unified`
with insert-or-ignore semantics, `source_type = system`, and `entity_id`
always the owning user's id. -/

/-- Modelled from the spec: dual-write of a derived language/framework
fact — the legacy `tech_stack` upsert of src/index.ts lines 681-691 plus
the unified user-level insert. -/
def scanTechDual (db : Db) (uid : Nat) (tech cat : String) (cnt now : Nat) : Db :=
  { db with
    tech_stack := techUpsert db.tech_stack uid tech cat cnt now
    tags_unified := insertOrIgnore db.tags_unified
      { tag_name := tech, entity_type := "user", entity_id := uid,
        source_type := "system", source_user_id := none, category := cat,
        repo_name := none } }

/-- Modelled from the spec: dual-write of a derived AI-tool fact — the
legacy `ai_assistance` upsert of src/index.ts lines 818-824 plus the
unified repo-level insert, whose `entity_id` is the owning user's id. -/
def scanAiDual (db : Db) (uid : Nat) (repo tool : String) (cnt now : Nat) : Db :=
  { db with
    ai_assistance := aiUpsert db.ai_assistance uid repo tool cnt now
    tags_unified := insertOrIgnore db.tags_unified
      { tag_name := tool, entity_type := "repo", entity_id := uid,
        source_type := "system", source_user_id := none, category := "ai_tool",
        repo_name := some repo } }

/-- Modelled from the spec: dual-write of a derived hosting-service fact —
the legacy `services` upsert of src/index.ts lines 879-890 plus the unified
user-level insert. -/
def scanServiceDual (db : Db) (uid : Nat) (svc : String) (rc mc now : Nat) : Db :=
  { db with
    services := servicesUpsert db.services uid svc rc mc now
    tags_unified := insertOrIgnore db.tags_unified
      { tag_name := svc, entity_type := "user", entity_id := uid,
        source_type := "system", source_user_id := none, category := "service",
        repo_name := none } }

/-! ### The operations of the subsystem as a transition system -/

/-- One operation of the tag subsystem: the two legacy mutation endpoints
of `src/index.ts`, the spec-modelled startup migration, the spec-modelled
unified tag mutations, and the three dual-write scan writes. -/
inductive UOp where
  | addTagL (req : AddTagRequest)
  | removeTagL (req : RemoveTagRequest)
  | migrate
  | addTag (t etype : String) (eid : Nat) (repo : Option String) (tagger : Nat)
  | removeTag (t etype : String) (eid : Nat) (repo : Option String) (requester : Nat)
  | rename (o n : String)
  | scanTech (uid : Nat) (tech cat : String) (cnt now : Nat)
  | scanAi (uid : Nat) (repo tool : String) (cnt now : Nat)
  | scanService (uid : Nat) (svc : String) (rc mc now : Nat)

/-- Apply one operation to the database state. -/
def applyUOp (db : Db) : UOp → Db
  | .addTagL req => (addTagHandler db req).2
  | .removeTagL req => (removeTagHandler db req).2
  | .migrate => migrateToUnifiedTags db
  | .addTag t etype eid repo tagger =>
      { db with tags_unified := (addTagU db.tags_unified t etype eid repo tagger).1 }
  | .removeTag t etype eid repo requester =>
      { db with tags_unified := (removeTagU db.tags_unified t etype eid repo requester).1 }
  | .rename o n => { db with tags_unified := renameTagU db.tags_unified o n }
  | .scanTech uid tech cat cnt now => scanTechDual db uid tech cat cnt now
  | .scanAi uid repo tool cnt now => scanAiDual db uid repo tool cnt now
  | .scanService uid svc rc mc now => scanServiceDual db uid svc rc mc now

/-- Run a list of operations left to right. -/
def runOps (ops : List UOp) (db : Db) : Db := ops.foldl applyUOp db

/-! ### The user-level uniqueness invariant (spec section 3) -/

/-- A unified row matches the user-level uniqueness key `(t, e, i)` with a
null `repo_name`. -/
abbrev isUserKey (t e : String) (i : Nat) (r : UnifiedRow) : Prop :=
  r.tag_name = t ∧ r.entity_type = e ∧ r.entity_id = i ∧ r.repo_name = none

/-- The number of rows matching key `(t, e, i)` with a null `repo_name`. -/
def countUser (tbl : List UnifiedRow) (t e : String) (i : Nat) : Nat :=
  tbl.countP (fun r => decide (isUserKey t e i r))

/-- User-level uniqueness: at most one fact per `(tag_name, entity_type,
entity_id)` with a null `repo_name`. -/
def userLevelUnique (tbl : List UnifiedRow) : Prop :=
  ∀ t e i, countUser tbl t e i ≤ 1

/-- Erase the `updated_at` metadata column of a `tech_stack` row, for
stating that a repeated upsert changes at most that column. -/
def dropTimeTech (r : TechRow) : TechRow := { r with updated_at := 0 }

/-- Erase the `updated_at` metadata column of a `services` row. -/
def dropTimeSvc (r : ServiceRow) : ServiceRow := { r with updated_at := 0 }

/-! ### Concrete example states used to witness the theorems -/

/-- A state with one legacy AI-tool row `(user_id = 5, repo_name = "foo",
ai_tool = "Claude")`, whose owning repository has internal id 42. -/
def aiMigrationExample : Db :=
  { users := [], repositories := [⟨42, 5, "foo", some "TypeScript", 0⟩],
    tech_stack := [], ai_assistance := [⟨5, "foo", "Claude", 3, "README", 0⟩],
    services := [], tags := [], tags_unified := [] }

/-- A state where user alice owns the repo "webapp" (primary language
JavaScript), alice has "Python" in her legacy tech stack, and the free-form
`tags` table is empty. -/
def tagDetailExample : Db :=
  { users := [⟨1, "alice", none, none⟩],
    repositories := [⟨42, 1, "webapp", some "JavaScript", 0⟩],
    tech_stack := [⟨1, "Python", "language", 3, 0⟩],
    ai_assistance := [], services := [], tags := [], tags_unified := [] }

/-- A state with users alice (id 1) and bob (id 2) where alice tagged
herself "cool"; bob never sourced any tag. -/
def removeExample : Db :=
  { users := [⟨1, "alice", none, none⟩, ⟨2, "bob", none, none⟩],
    repositories := [], tech_stack := [], ai_assistance := [], services := [],
    tags := [⟨1, "user", 1, "cool"⟩], tags_unified := [] }

/-- A state with users alice (id 1) and bob (id 2) and no tags at all. -/
def twoUsersExample : Db :=
  { users := [⟨1, "alice", none, none⟩, ⟨2, "bob", none, none⟩],
    repositories := [], tech_stack := [], ai_assistance := [], services := [],
    tags := [], tags_unified := [] }

/-! ### Helper lemmas about the insert-or-ignore fold -/

theorem uconf_refl (r : UnifiedRow) : uconf r r := ⟨rfl, rfl, rfl, rfl⟩

theorem mem_insertOrIgnore {tbl : List UnifiedRow} {x : UnifiedRow}
    (r : UnifiedRow) (hx : x ∈ tbl) : x ∈ insertOrIgnore tbl r := by
  unfold insertOrIgnore
  split
  · exact hx
  · exact List.mem_append_left _ hx

theorem insertOrIgnore_conflict (tbl : List UnifiedRow) (r : UnifiedRow) :
    ∃ x ∈ insertOrIgnore tbl r, uconf x r := by
  unfold insertOrIgnore
  split
  · assumption
  · exact ⟨r, List.mem_append_right _ (List.mem_singleton.mpr rfl), uconf_refl r⟩

theorem mem_foldl_insertOrIgnore {x : UnifiedRow} (rows : List UnifiedRow)
    (tbl : List UnifiedRow) (hx : x ∈ tbl) :
    x ∈ rows.foldl insertOrIgnore tbl := by
  induction rows generalizing tbl with
  | nil => exact hx
  | cons r rows ih => exact ih _ (mem_insertOrIgnore r hx)

theorem foldl_insertOrIgnore_conflict (rows : List UnifiedRow)
    (tbl : List UnifiedRow) :
    ∀ r ∈ rows, ∃ x ∈ rows.foldl insertOrIgnore tbl, uconf x r := by
  induction rows generalizing tbl with
  | nil => intro r hr; cases hr
  | cons a rows ih =>
    intro r hr
    rcases List.mem_cons.mp hr with h | h
    · subst h
      obtain ⟨x, hx, hcf⟩ := insertOrIgnore_conflict tbl r
      exact ⟨x, mem_foldl_insertOrIgnore rows _ hx, hcf⟩
    · exact ih (insertOrIgnore tbl a) r h

theorem foldl_insertOrIgnore_of_conflicts {rows tbl : List UnifiedRow}
    (h : ∀ r ∈ rows, ∃ x ∈ tbl, uconf x r) :
    rows.foldl insertOrIgnore tbl = tbl := by
  induction rows with
  | nil => rfl
  | cons a rows ih =>
    have ha : insertOrIgnore tbl a = tbl := by
      unfold insertOrIgnore
      rw [if_pos (h a (List.mem_cons_self a rows))]
    rw [List.foldl_cons, ha]
    exact ih (fun r hr => h r (List.mem_cons_of_mem a hr))

theorem migrate_keeps_legacy (db : Db) :
    (migrateToUnifiedTags db).users = db.users ∧
    (migrateToUnifiedTags db).repositories = db.repositories ∧
    (migrateToUnifiedTags db).tech_stack = db.tech_stack ∧
    (migrateToUnifiedTags db).ai_assistance = db.ai_assistance ∧
    (migrateToUnifiedTags db).services = db.services ∧
    (migrateToUnifiedTags db).tags = db.tags := by
  unfold migrateToUnifiedTags
  split <;> exact ⟨rfl, rfl, rfl, rfl, rfl, rfl⟩

theorem migrationRows_migrate (db : Db) :
    migrationRows (migrateToUnifiedTags db) = migrationRows db := by
  obtain ⟨-, -, h3, h4, h5, h6⟩ := migrate_keeps_legacy db
  unfold migrationRows
  rw [h3, h4, h5, h6]

/-- The migration routine is idempotent on the whole database state: the
second run either skips via the `source_type = system` presence guard or
re-derives exactly the rows of the first run, all of which are then ignored
as duplicates. -/
theorem migrate_idem (db : Db) :
    migrateToUnifiedTags (migrateToUnifiedTags db) = migrateToUnifiedTags db := by
  by_cases hg : ∃ r ∈ db.tags_unified, r.source_type = "system"
  · have h1 : migrateToUnifiedTags db = db := by
      unfold migrateToUnifiedTags; rw [if_pos hg]
    rw [h1, h1]
  · have h1 : migrateToUnifiedTags db =
        { db with tags_unified := (migrationRows db).foldl insertOrIgnore db.tags_unified } := by
      unfold migrateToUnifiedTags; rw [if_neg hg]
    have hrows := migrationRows_migrate db
    have hconf : ∀ r ∈ migrationRows db,
        ∃ x ∈ (migrateToUnifiedTags db).tags_unified, uconf x r := by
      intro r hr
      rw [h1]
      exact foldl_insertOrIgnore_conflict (migrationRows db) db.tags_unified r hr
    set s1 := migrateToUnifiedTags db with hs1
    by_cases hg2 : ∃ r ∈ s1.tags_unified, r.source_type = "system"
    · unfold migrateToUnifiedTags
      rw [if_pos hg2]
    · unfold migrateToUnifiedTags
      rw [if_neg hg2, hrows, foldl_insertOrIgnore_of_conflicts hconf]

/-! ### Preservation of user-level uniqueness -/

theorem countUser_insertOrIgnore {tbl : List UnifiedRow} (r : UnifiedRow)
    {t e : String} {i : Nat} (h : countUser tbl t e i ≤ 1) :
    countUser (insertOrIgnore tbl r) t e i ≤ 1 := by
  unfold insertOrIgnore
  split
  · exact h
  · rename_i hc
    unfold countUser at *
    rw [List.countP_append]
    by_cases hk : isUserKey t e i r
    · have h0 : tbl.countP (fun x => decide (isUserKey t e i x)) = 0 := by
        rw [List.countP_eq_zero]
        intro a ha hda
        have hak : isUserKey t e i a := of_decide_eq_true hda
        exact hc ⟨a, ha, hak.1.trans hk.1.symm, hak.2.1.trans hk.2.1.symm,
          hak.2.2.1.trans hk.2.2.1.symm, hak.2.2.2.trans hk.2.2.2.symm⟩
      rw [h0]
      simpa using List.countP_le_length _
    · have h1 : List.countP (fun x => decide (isUserKey t e i x)) [r] = 0 := by
        simp [hk]
      omega

theorem unique_insertOrIgnore {tbl : List UnifiedRow} (r : UnifiedRow)
    (h : userLevelUnique tbl) : userLevelUnique (insertOrIgnore tbl r) :=
  fun t e i => countUser_insertOrIgnore r (h t e i)

theorem unique_foldl_insertOrIgnore (rows : List UnifiedRow)
    {tbl : List UnifiedRow} (h : userLevelUnique tbl) :
    userLevelUnique (rows.foldl insertOrIgnore tbl) := by
  induction rows generalizing tbl with
  | nil => exact h
  | cons a rows ih => exact ih (unique_insertOrIgnore a h)

theorem unique_filter (p : UnifiedRow → Bool) {tbl : List UnifiedRow}
    (h : userLevelUnique tbl) : userLevelUnique (tbl.filter p) := by
  intro t e i
  exact le_trans ((List.filter_sublist tbl).countP_le _) (h t e i)

theorem unique_renameTagU {tbl : List UnifiedRow} (o n : String)
    (h : userLevelUnique tbl) : userLevelUnique (renameTagU tbl o n) := by
  intro t e i
  unfold countUser renameTagU
  rw [List.countP_filterMap]
  by_cases hn : t = n
  · subst hn
    by_cases hy : ∃ y ∈ tbl, isUserKey t e i y
    · refine le_trans (List.countP_mono_left (q := fun r => decide (isUserKey t e i r)) ?_) (h t e i)
      intro r hr hg
      by_cases hro : r.tag_name = o
      · rw [if_pos hro] at hg
        by_cases hcol : renameCollides tbl t r
        · rw [if_pos hcol] at hg
          simp at hg
        · rw [if_neg hcol] at hg
          exfalso
          have hk : isUserKey t e i { r with tag_name := t } := by
            simpa using of_decide_eq_true hg
          obtain ⟨y, hym, hyk⟩ := hy
          exact hcol ⟨y, hym, hyk.1, by
            simpa [hyk.2.1] using hk.2.1.symm, by
            simpa [hyk.2.2.1] using hk.2.2.1.symm, by
            simpa [hyk.2.2.2] using hk.2.2.2.symm⟩
      · rwa [if_neg hro] at hg
    · refine le_trans (List.countP_mono_left (q := fun r => decide (isUserKey o e i r)) ?_) (h o e i)
      intro r hr hg
      by_cases hro : r.tag_name = o
      · rw [if_pos hro] at hg
        by_cases hcol : renameCollides tbl t r
        · rw [if_pos hcol] at hg
          simp at hg
        · rw [if_neg hcol] at hg
          have hk : isUserKey t e i { r with tag_name := t } := by
            simpa using of_decide_eq_true hg
          exact decide_eq_true ⟨hro, hk.2.1, hk.2.2.1, hk.2.2.2⟩
      · rw [if_neg hro] at hg
        exact absurd ⟨r, hr, of_decide_eq_true (by simpa using hg)⟩ hy
  · by_cases ho : t = o
    · subst ho
      have h0 : List.countP
          (fun r => ((if r.tag_name = t then
            if renameCollides tbl n r then none
            else some { r with tag_name := n }
          else some r).map (fun b => decide (isUserKey t e i b))).getD false) tbl = 0 := by
        rw [List.countP_eq_zero]
        intro r hr hg
        by_cases hro : r.tag_name = t
        · rw [if_pos hro] at hg
          by_cases hcol : renameCollides tbl n r
          · rw [if_pos hcol] at hg
            simp at hg
          · rw [if_neg hcol] at hg
            have hk : isUserKey t e i { r with tag_name := n } := by
              simpa using of_decide_eq_true hg
            exact hn hk.1.symm
        · rw [if_neg hro] at hg
          have hk : isUserKey t e i r := of_decide_eq_true (by simpa using hg)
          exact hro hk.1
      rw [h0]
      exact Nat.zero_le 1
    · refine le_trans (List.countP_mono_left (q := fun r => decide (isUserKey t e i r)) ?_) (h t e i)
      intro r hr hg
      by_cases hro : r.tag_name = o
      · rw [if_pos hro] at hg
        by_cases hcol : renameCollides tbl n r
        · rw [if_pos hcol] at hg
          simp at hg
        · rw [if_neg hcol] at hg
          have hk : isUserKey t e i { r with tag_name := n } := by
            simpa using of_decide_eq_true hg
          exact absurd hk.1.symm hn
      · rwa [if_neg hro] at hg

theorem addTagHandler_keeps_unified (db : Db) (req : AddTagRequest) :
    ((addTagHandler db req).2).tags_unified = db.tags_unified := by
  unfold addTagHandler
  split
  · rfl
  · split <;> rfl

theorem removeTagHandler_keeps_unified (db : Db) (req : RemoveTagRequest) :
    ((removeTagHandler db req).2).tags_unified = db.tags_unified := by
  unfold removeTagHandler
  split
  · rfl
  · split
    · dsimp only
      split <;> rfl
    · rfl

theorem applyUOp_preserves_unique (db : Db) (op : UOp)
    (h : userLevelUnique db.tags_unified) :
    userLevelUnique (applyUOp db op).tags_unified := by
  cases op with
  | addTagL req => rw [applyUOp, addTagHandler_keeps_unified]; exact h
  | removeTagL req => rw [applyUOp, removeTagHandler_keeps_unified]; exact h
  | migrate =>
      rw [applyUOp]
      unfold migrateToUnifiedTags
      split
      · exact h
      · exact unique_foldl_insertOrIgnore _ h
  | addTag t etype eid repo tagger => exact unique_insertOrIgnore _ h
  | removeTag t etype eid repo requester => exact unique_filter _ h
  | rename o n => exact unique_renameTagU o n h
  | scanTech uid tech cat cnt now => exact unique_insertOrIgnore _ h
  | scanAi uid repo tool cnt now => exact unique_insertOrIgnore _ h
  | scanService uid svc rc mc now => exact unique_insertOrIgnore _ h

theorem runOps_preserves_unique (ops : List UOp) (db : Db)
    (h : userLevelUnique db.tags_unified) :
    userLevelUnique (runOps ops db).tags_unified := by
  induction ops generalizing db with
  | nil => exact h
  | cons op ops ih => exact ih _ (applyUOp_preserves_unique db op h)

/-! ### Helper lemmas about the scan upserts -/

theorem insertOrIgnore_of_conflict {tbl : List UnifiedRow} {r : UnifiedRow}
    (h : ∃ x ∈ tbl, uconf x r) : insertOrIgnore tbl r = tbl := by
  unfold insertOrIgnore
  rw [if_pos h]

theorem techUpsert_mem (tbl : List TechRow) (uid : Nat) (tech cat : String)
    (cnt now : Nat) :
    ∃ r ∈ techUpsert tbl uid tech cat cnt now,
      r.user_id = uid ∧ r.technology = tech ∧ r.repo_count = cnt := by
  unfold techUpsert
  split
  · rename_i hx
    obtain ⟨w, hw, hk⟩ := hx
    refine ⟨{ w with repo_count := cnt, updated_at := now }, ?_, hk.1, hk.2, rfl⟩
    exact List.mem_map.mpr ⟨w, hw, by rw [if_pos hk]⟩
  · exact ⟨_, List.mem_append_right _ (List.mem_singleton.mpr rfl), rfl, rfl, rfl⟩

theorem techUpsert_key_count (tbl : List TechRow) (uid : Nat)
    (tech cat : String) (cnt now : Nat) :
    ∀ r ∈ techUpsert tbl uid tech cat cnt now,
      techKey uid tech r → r.repo_count = cnt := by
  unfold techUpsert
  split
  · rename_i hx
    intro r hr hk
    obtain ⟨w, hw, hweq⟩ := List.mem_map.mp hr
    by_cases hwk : techKey uid tech w
    · rw [if_pos hwk] at hweq
      rw [← hweq]
    · rw [if_neg hwk] at hweq
      exact absurd (hweq ▸ hk) hwk
  · rename_i hx
    intro r hr hk
    rcases List.mem_append.mp hr with h | h
    · exact absurd ⟨r, h, hk⟩ hx
    · rw [List.mem_singleton.mp h]

theorem techUpsert_update_of_mem {tbl : List TechRow} {uid : Nat}
    {tech : String} (cat : String) (cnt now : Nat)
    (h : ∃ r ∈ tbl, techKey uid tech r) :
    techUpsert tbl uid tech cat cnt now =
      tbl.map (fun r => if techKey uid tech r then
        { r with repo_count := cnt, updated_at := now } else r) := by
  unfold techUpsert
  rw [if_pos h]

theorem svcUpsert_mem (tbl : List ServiceRow) (uid : Nat) (svc : String)
    (rc mc now : Nat) :
    ∃ r ∈ servicesUpsert tbl uid svc rc mc now,
      r.user_id = uid ∧ r.service_name = svc ∧
      r.repo_count = rc ∧ r.mention_count = mc := by
  unfold servicesUpsert
  split
  · rename_i hx
    obtain ⟨w, hw, hk⟩ := hx
    refine ⟨{ w with repo_count := rc, mention_count := mc, updated_at := now },
      ?_, hk.1, hk.2, rfl, rfl⟩
    exact List.mem_map.mpr ⟨w, hw, by rw [if_pos hk]⟩
  · exact ⟨_, List.mem_append_right _ (List.mem_singleton.mpr rfl), rfl, rfl, rfl, rfl⟩

theorem svcUpsert_key_count (tbl : List ServiceRow) (uid : Nat) (svc : String)
    (rc mc now : Nat) :
    ∀ r ∈ servicesUpsert tbl uid svc rc mc now,
      svcKey uid svc r → r.repo_count = rc ∧ r.mention_count = mc := by
  unfold servicesUpsert
  split
  · rename_i hx
    intro r hr hk
    obtain ⟨w, hw, hweq⟩ := List.mem_map.mp hr
    by_cases hwk : svcKey uid svc w
    · rw [if_pos hwk] at hweq
      rw [← hweq]
      exact ⟨rfl, rfl⟩
    · rw [if_neg hwk] at hweq
      exact absurd (hweq ▸ hk) hwk
  · rename_i hx
    intro r hr hk
    rcases List.mem_append.mp hr with h | h
    · exact absurd ⟨r, h, hk⟩ hx
    · rw [List.mem_singleton.mp h]
      exact ⟨rfl, rfl⟩

theorem svcUpsert_update_of_mem {tbl : List ServiceRow} {uid : Nat}
    {svc : String} (rc mc now : Nat)
    (h : ∃ r ∈ tbl, svcKey uid svc r) :
    servicesUpsert tbl uid svc rc mc now =
      tbl.map (fun r => if svcKey uid svc r then
        { r with repo_count := rc, mention_count := mc, updated_at := now } else r) := by
  unfold servicesUpsert
  rw [if_pos h]

theorem aiUpsert_mem (tbl : List AiRow) (uid : Nat) (repo tool : String)
    (cnt now : Nat) :
    ∃ r ∈ aiUpsert tbl uid repo tool cnt now,
      r.user_id = uid ∧ r.repo_name = repo ∧ r.ai_tool = tool ∧
      r.mention_count = cnt := by
  unfold aiUpsert
  split
  · rename_i hx
    obtain ⟨w, hw, hk⟩ := hx
    refine ⟨{ w with mention_count := cnt, updated_at := now },
      ?_, hk.1, hk.2.1, hk.2.2, rfl⟩
    exact List.mem_map.mpr ⟨w, hw, by rw [if_pos hk]⟩
  · exact ⟨_, List.mem_append_right _ (List.mem_singleton.mpr rfl), rfl, rfl, rfl, rfl⟩

theorem aiUpsert_update_of_mem {tbl : List AiRow} {uid : Nat}
    {repo tool : String} (cnt now : Nat)
    (h : ∃ r ∈ tbl, aiKey uid repo tool r) :
    aiUpsert tbl uid repo tool cnt now =
      tbl.map (fun r => if aiKey uid repo tool r then
        { r with mention_count := cnt, updated_at := now } else r) := by
  unfold aiUpsert
  rw [if_pos h]

/-! ### Claim theorems -/

/-- C1: running the migration routine a second time adds zero rows — for
every database state, the unified row count after running the routine twice
equals the row count after running it once.  (In fact the whole state is
unchanged, by `migrate_idem`: the second run is skipped by the
`source_type = system` presence guard whenever the first run inserted a
system row, and otherwise re-derives only rows that the uniqueness
constraints silently skip.) -/
theorem migration_second_run_adds_no_rows (db : Db) :
    (migrateToUnifiedTags (migrateToUnifiedTags db)).tags_unified.length =
    (migrateToUnifiedTags db).tags_unified.length := by
  rw [migrate_idem]

/-- C2: user-level uniqueness — in every database state reachable by the
modelled operations (legacy endpoints, migration, unified tag mutations,
rename, dual-write scans) from a state satisfying the invariant, at most
one fact row matches a given `(tag_name, entity_type, entity_id)` with a
null `repo_name`; every operation preserves this. -/
theorem user_level_uniqueness_invariant (ops : List UOp) (db : Db)
    (h : userLevelUnique db.tags_unified) :
    ∀ t e i, countUser (runOps ops db).tags_unified t e i ≤ 1 :=
  runOps_preserves_unique ops db h

/-- Witness for C2: two different users tagging the same user with the same
tag still leave at most one user-level fact row for that key. -/
theorem user_level_uniqueness_invariant_witness :
    countUser (runOps [UOp.addTag "cool" "user" 1 none 2,
      UOp.addTag "cool" "user" 1 none 3] emptyDb).tags_unified "cool" "user" 1 ≤ 1 :=
  user_level_uniqueness_invariant
    [UOp.addTag "cool" "user" 1 none 2, UOp.addTag "cool" "user" 1 none 3]
    emptyDb (fun t e i => by simp [countUser, emptyDb]) "cool" "user" 1

/-- C6: migrating the legacy AI-tool row `(user_id = 5, repo_name = "foo",
ai_tool = "Claude")` yields a repo-level unified fact whose `entity_id` is
the owning user's id 5 — never the repository's internal id (42 in this
state): the expected repo-level row is present and every migrated row
carries `entity_id = 5`. -/
theorem ai_migration_uses_owner_user_id :
    (⟨"Claude", "repo", 5, "system", none, "ai_tool", some "foo"⟩ : UnifiedRow) ∈
      (migrateToUnifiedTags aiMigrationExample).tags_unified ∧
    ∀ r ∈ (migrateToUnifiedTags aiMigrationExample).tags_unified,
      r.entity_id = 5 ∧ r.entity_id ≠ 42 := by
  decide

/-- C8 counterexample: in `tagDetailExample` the `/api/tag` repository
query for "Python" returns the repo "webapp" although the free-form tag
table is empty and no repository even has "Python" as its primary
language — the repo is selected only because its owner has "Python" in the
legacy `tech_stack` table, so a repository can appear without any fact
associating that specific repository with the tag. -/
theorem tag_detail_returns_unassociated_repo :
    (reposForTag tagDetailExample "Python").map (fun r => r.name) = ["webapp"] ∧
    tagDetailExample.tags = [] ∧
    ∀ r ∈ tagDetailExample.repositories, r.language ≠ some "Python" := by
  decide

/-- C8 amended: the users half of `/api/tag` returns exactly the distinct
users carrying the tag; the repositories half returns exactly the
repositories (with a known owner) whose primary-language column equals the
tag or whose owner has the tag as a technology in the legacy `tech_stack`
table — membership does not consult the `tags` table at all. -/
theorem tag_detail_membership (db : Db) (t : String) :
    (∀ u, u ∈ usersForTag db t ↔ u ∈ db.users ∧
      ∃ r ∈ db.tags, r.tagged_entity_id = u.id ∧
        r.tagged_entity_type = "user" ∧ r.tag = t) ∧
    (∀ rp, rp ∈ reposForTag db t ↔ rp ∈ db.repositories ∧
      (∃ u ∈ db.users, u.id = rp.user_id) ∧
      (rp.language = some t ∨
        ∃ ts ∈ db.tech_stack, ts.user_id = rp.user_id ∧ ts.technology = t)) := by
  constructor
  · intro u
    simp [usersForTag, List.mem_filter, and_assoc]
  · intro rp
    simp [reposForTag, List.mem_filter, and_assoc]

/-- C3: a remove-tag request by a requester who did not source the matching
fact (no `tags` row created by the requester names the targeted user and
tag — which also covers the fact being absent; the legacy table cannot hold
system-sourced rows) deletes no row: the handler answers the 403
PermissionDenied-style outcome, the state is returned unchanged, and the
tag-table row count before equals the row count after. -/
theorem remove_tag_nonsourcer_denied (db : Db) (tu tg lu : String)
    (tid lid : Nat) (h1 : tu ≠ "") (h2 : tg ≠ "") (h3 : lu ≠ "")
    (hf1 : findUserId db tu = some tid) (hf2 : findUserId db lu = some lid)
    (hns : ∀ r ∈ db.tags, ¬ removeMatch lid tid tg r) :
    removeTagHandler db ⟨some tu, some tg, some lu⟩ = (.forbidden, db) ∧
    ((removeTagHandler db ⟨some tu, some tg, some lu⟩).2).tags.length
      = db.tags.length := by
  have hrem : db.tags.filter (fun r => decide (¬ removeMatch lid tid tg r)) = db.tags :=
    List.filter_eq_self.mpr (fun r hr => decide_eq_true (hns r hr))
  have hmain : removeTagHandler db ⟨some tu, some tg, some lu⟩ = (.forbidden, db) := by
    unfold removeTagHandler
    rw [if_neg (by simp [blank, h1, h2, h3])]
    simp only [Option.getD_some]
    rw [hf1, hf2]
    dsimp only
    rw [hrem, if_pos rfl]
  exact ⟨hmain, by rw [hmain]⟩

/-- Witness for C3: bob, who never sourced alice's "cool" tag, asks to
remove it; nothing is deleted and the outcome is the 403 error. -/
theorem remove_tag_nonsourcer_denied_witness :
    removeTagHandler removeExample ⟨some "alice", some "cool", some "bob"⟩
      = (.forbidden, removeExample) ∧
    ((removeTagHandler removeExample ⟨some "alice", some "cool", some "bob"⟩).2).tags.length
      = removeExample.tags.length :=
  remove_tag_nonsourcer_denied removeExample "alice" "cool" "bob" 1 2
    (by decide) (by decide) (by decide) (by decide) (by decide) (by decide)

/-- C4: starting from a state where no `tags` row yet matches
`(tg, user, tid)`, two add-tag calls with identical arguments leave the
state of the first call untouched — the conflicting second call is a no-op
signaled as success `{success: true, tag}`, not an error — and exactly one
row matching `(tg, user, tid)` exists afterwards. -/
theorem add_tag_twice_one_row (db : Db) (tu tg bu : String) (tid bid : Nat)
    (h1 : tu ≠ "") (h2 : tg ≠ "") (h3 : bu ≠ "")
    (hf1 : findUserId db tu = some tid) (hf2 : findUserId db bu = some bid)
    (hpre : ∀ r ∈ db.tags,
      ¬(r.tagged_entity_type = "user" ∧ r.tagged_entity_id = tid ∧ r.tag = tg)) :
    addTagHandler ((addTagHandler db ⟨some tu, some tg, some bu⟩).2)
        ⟨some tu, some tg, some bu⟩
      = (.ok tg, (addTagHandler db ⟨some tu, some tg, some bu⟩).2) ∧
    ((addTagHandler ((addTagHandler db ⟨some tu, some tg, some bu⟩).2)
        ⟨some tu, some tg, some bu⟩).2).tags.countP
      (fun r => decide (r.tagged_entity_type = "user" ∧
        r.tagged_entity_id = tid ∧ r.tag = tg)) = 1 := by
  have hrow : mkLegacyTagRow bid tid tg ∉ db.tags := fun hmem =>
    hpre _ hmem ⟨rfl, rfl, rfl⟩
  have hd1 : (addTagHandler db ⟨some tu, some tg, some bu⟩).2
      = { db with tags := db.tags ++ [mkLegacyTagRow bid tid tg] } := by
    unfold addTagHandler
    rw [if_neg (by simp [blank, h1, h2, h3])]
    simp only [Option.getD_some]
    rw [hf1, hf2]
    dsimp only
    rw [if_neg hrow]
  have hf1b : findUserId { db with tags := db.tags ++ [mkLegacyTagRow bid tid tg] } tu
      = some tid := hf1
  have hf2b : findUserId { db with tags := db.tags ++ [mkLegacyTagRow bid tid tg] } bu
      = some bid := hf2
  have hmem2 : mkLegacyTagRow bid tid tg ∈
      ({ db with tags := db.tags ++ [mkLegacyTagRow bid tid tg] } : Db).tags :=
    List.mem_append_right _ (List.mem_singleton.mpr rfl)
  have hsecond : addTagHandler ((addTagHandler db ⟨some tu, some tg, some bu⟩).2)
        ⟨some tu, some tg, some bu⟩
      = (.ok tg, (addTagHandler db ⟨some tu, some tg, some bu⟩).2) := by
    rw [hd1]
    unfold addTagHandler
    rw [if_neg (by simp [blank, h1, h2, h3])]
    simp only [Option.getD_some]
    rw [hf1b, hf2b]
    dsimp only
    rw [if_pos hmem2]
  refine ⟨hsecond, ?_⟩
  rw [hsecond]
  rw [hd1]
  dsimp only
  rw [List.countP_append]
  have h0 : db.tags.countP (fun r => decide (r.tagged_entity_type = "user" ∧
      r.tagged_entity_id = tid ∧ r.tag = tg)) = 0 :=
    List.countP_eq_zero.mpr (fun r hr => by simpa using hpre r hr)
  rw [h0]
  simp [mkLegacyTagRow]

/-- Witness for C4: bob tags alice "cool" twice in a state with no prior
tags; the second call is a no-op answered with success and one matching row
exists. -/
theorem add_tag_twice_one_row_witness :
    addTagHandler ((addTagHandler twoUsersExample
        ⟨some "alice", some "cool", some "bob"⟩).2)
        ⟨some "alice", some "cool", some "bob"⟩
      = (.ok "cool", (addTagHandler twoUsersExample
        ⟨some "alice", some "cool", some "bob"⟩).2) ∧
    ((addTagHandler ((addTagHandler twoUsersExample
        ⟨some "alice", some "cool", some "bob"⟩).2)
        ⟨some "alice", some "cool", some "bob"⟩).2).tags.countP
      (fun r => decide (r.tagged_entity_type = "user" ∧
        r.tagged_entity_id = 1 ∧ r.tag = "cool")) = 1 :=
  add_tag_twice_one_row twoUsersExample "alice" "cool" "bob" 1 2
    (by decide) (by decide) (by decide) (by decide) (by decide) (by simp [twoUsersExample])

/-- C9: a tag mutation request with a missing (or empty, which the
handlers' JS falsiness test treats the same) required field is answered
with the 400 "Missing required fields" error and the database is returned
unchanged — never a partial or ambiguous success. -/
theorem tag_mutation_missing_field_rejected (db : Db)
    (r1 : AddTagRequest) (r2 : RemoveTagRequest)
    (h1 : blank r1.tagged_username ∨ blank r1.tag ∨ blank r1.tagged_by_username)
    (h2 : blank r2.tagged_username ∨ blank r2.tag ∨ blank r2.logged_in_username) :
    addTagHandler db r1 = (.missingFields, db) ∧
    removeTagHandler db r2 = (.missingFields, db) :=
  ⟨by unfold addTagHandler; rw [if_pos h1],
   by unfold removeTagHandler; rw [if_pos h2]⟩

/-- Witness for C9: an add-tag body without `tagged_username` and a
remove-tag body without `tag` are both rejected with the validation error,
leaving the state unchanged. -/
theorem tag_mutation_missing_field_rejected_witness :
    addTagHandler removeExample ⟨none, some "cool", some "bob"⟩
      = (.missingFields, removeExample) ∧
    removeTagHandler removeExample ⟨some "alice", none, some "bob"⟩
      = (.missingFields, removeExample) :=
  tag_mutation_missing_field_rejected removeExample
    ⟨none, some "cool", some "bob"⟩ ⟨some "alice", none, some "bob"⟩
    (Or.inl trivial) (Or.inr (Or.inl trivial))

/-- C5: the dual-write scan integration — a derived language/framework fact
is written both to the legacy `tech_stack` table and to the unified table,
a derived AI-tool fact both to `ai_assistance` and to the unified table
(with `entity_id` the owning user's id and `repo_name` the repository), and
a derived hosting-service fact both to the legacy `services` table and to
the unified table; in every case both halves tolerate duplicates: repeating
the identical write leaves the legacy row count and the unified table
unchanged. -/
theorem scan_dual_write (db : Db) (uid : Nat) (tech cat repo tool svc : String)
    (cnt rc mc now now2 : Nat) :
    (∃ r ∈ (scanTechDual db uid tech cat cnt now).tech_stack,
        r.user_id = uid ∧ r.technology = tech ∧ r.repo_count = cnt) ∧
    (∃ r ∈ (scanTechDual db uid tech cat cnt now).tags_unified,
        r.tag_name = tech ∧ r.entity_type = "user" ∧ r.entity_id = uid ∧
        r.repo_name = none) ∧
    (scanTechDual (scanTechDual db uid tech cat cnt now) uid tech cat cnt now2).tech_stack.length
      = (scanTechDual db uid tech cat cnt now).tech_stack.length ∧
    (scanTechDual (scanTechDual db uid tech cat cnt now) uid tech cat cnt now2).tags_unified
      = (scanTechDual db uid tech cat cnt now).tags_unified ∧
    (∃ r ∈ (scanAiDual db uid repo tool cnt now).ai_assistance,
        r.user_id = uid ∧ r.repo_name = repo ∧ r.ai_tool = tool ∧
        r.mention_count = cnt) ∧
    (∃ r ∈ (scanAiDual db uid repo tool cnt now).tags_unified,
        r.tag_name = tool ∧ r.entity_type = "repo" ∧ r.entity_id = uid ∧
        r.repo_name = some repo) ∧
    (scanAiDual (scanAiDual db uid repo tool cnt now) uid repo tool cnt now2).ai_assistance.length
      = (scanAiDual db uid repo tool cnt now).ai_assistance.length ∧
    (scanAiDual (scanAiDual db uid repo tool cnt now) uid repo tool cnt now2).tags_unified
      = (scanAiDual db uid repo tool cnt now).tags_unified ∧
    (∃ r ∈ (scanServiceDual db uid svc rc mc now).services,
        r.user_id = uid ∧ r.service_name = svc ∧
        r.repo_count = rc ∧ r.mention_count = mc) ∧
    (∃ r ∈ (scanServiceDual db uid svc rc mc now).tags_unified,
        r.tag_name = svc ∧ r.entity_type = "user" ∧ r.entity_id = uid ∧
        r.repo_name = none) ∧
    (scanServiceDual (scanServiceDual db uid svc rc mc now) uid svc rc mc now2).services.length
      = (scanServiceDual db uid svc rc mc now).services.length ∧
    (scanServiceDual (scanServiceDual db uid svc rc mc now) uid svc rc mc now2).tags_unified
      = (scanServiceDual db uid svc rc mc now).tags_unified := by
  have htech := techUpsert_mem db.tech_stack uid tech cat cnt now
  have htechKey : ∃ r ∈ techUpsert db.tech_stack uid tech cat cnt now,
      techKey uid tech r := by
    obtain ⟨r, hr, h⟩ := htech
    exact ⟨r, hr, h.1, h.2.1⟩
  have hai := aiUpsert_mem db.ai_assistance uid repo tool cnt now
  have haiKey : ∃ r ∈ aiUpsert db.ai_assistance uid repo tool cnt now,
      aiKey uid repo tool r := by
    obtain ⟨r, hr, h⟩ := hai
    exact ⟨r, hr, h.1, h.2.1, h.2.2.1⟩
  have hsvc := svcUpsert_mem db.services uid svc rc mc now
  have hsvcKey : ∃ r ∈ servicesUpsert db.services uid svc rc mc now,
      svcKey uid svc r := by
    obtain ⟨r, hr, h⟩ := hsvc
    exact ⟨r, hr, h.1, h.2.1⟩
  refine ⟨htech, ?_, ?_, ?_, hai, ?_, ?_, ?_, hsvc, ?_, ?_, ?_⟩
  · obtain ⟨x, hx, hc⟩ := insertOrIgnore_conflict db.tags_unified
      ⟨tech, "user", uid, "system", none, cat, none⟩
    exact ⟨x, hx, hc.1, hc.2.1, hc.2.2.1, hc.2.2.2⟩
  · show (techUpsert (techUpsert db.tech_stack uid tech cat cnt now) uid tech cat cnt now2).length
      = (techUpsert db.tech_stack uid tech cat cnt now).length
    rw [techUpsert_update_of_mem cat cnt now2 htechKey, List.length_map]
  · show insertOrIgnore (insertOrIgnore db.tags_unified _) _ = insertOrIgnore db.tags_unified _
    exact insertOrIgnore_of_conflict (insertOrIgnore_conflict _ _)
  · obtain ⟨x, hx, hc⟩ := insertOrIgnore_conflict db.tags_unified
      ⟨tool, "repo", uid, "system", none, "ai_tool", some repo⟩
    exact ⟨x, hx, hc.1, hc.2.1, hc.2.2.1, hc.2.2.2⟩
  · show (aiUpsert (aiUpsert db.ai_assistance uid repo tool cnt now) uid repo tool cnt now2).length
      = (aiUpsert db.ai_assistance uid repo tool cnt now).length
    rw [aiUpsert_update_of_mem cnt now2 haiKey, List.length_map]
  · show insertOrIgnore (insertOrIgnore db.tags_unified _) _ = insertOrIgnore db.tags_unified _
    exact insertOrIgnore_of_conflict (insertOrIgnore_conflict _ _)
  · obtain ⟨x, hx, hc⟩ := insertOrIgnore_conflict db.tags_unified
      ⟨svc, "user", uid, "system", none, "service", none⟩
    exact ⟨x, hx, hc.1, hc.2.1, hc.2.2.1, hc.2.2.2⟩
  · show (servicesUpsert (servicesUpsert db.services uid svc rc mc now) uid svc rc mc now2).length
      = (servicesUpsert db.services uid svc rc mc now).length
    rw [svcUpsert_update_of_mem rc mc now2 hsvcKey, List.length_map]
  · show insertOrIgnore (insertOrIgnore db.tags_unified _) _ = insertOrIgnore db.tags_unified _
    exact insertOrIgnore_of_conflict (insertOrIgnore_conflict _ _)

/-- C7: the scan writes are idempotent upserts — repeating the identical
`tech_stack` or `services` write creates no duplicate row (the row count is
unchanged by the second write) and leaves the stored data unchanged apart
from the `updated_at` metadata column (the conflicting write only re-stores
the equal count fields and refreshes `updated_at`). -/
theorem scan_upsert_idempotent (tbl : List TechRow) (stbl : List ServiceRow)
    (uid : Nat) (tech cat svc : String) (cnt rc mc t1 t2 : Nat) :
    (techUpsert (techUpsert tbl uid tech cat cnt t1) uid tech cat cnt t2).length
      = (techUpsert tbl uid tech cat cnt t1).length ∧
    (techUpsert (techUpsert tbl uid tech cat cnt t1) uid tech cat cnt t2).map dropTimeTech
      = (techUpsert tbl uid tech cat cnt t1).map dropTimeTech ∧
    (servicesUpsert (servicesUpsert stbl uid svc rc mc t1) uid svc rc mc t2).length
      = (servicesUpsert stbl uid svc rc mc t1).length ∧
    (servicesUpsert (servicesUpsert stbl uid svc rc mc t1) uid svc rc mc t2).map dropTimeSvc
      = (servicesUpsert stbl uid svc rc mc t1).map dropTimeSvc := by
  have htechKey : ∃ r ∈ techUpsert tbl uid tech cat cnt t1, techKey uid tech r := by
    obtain ⟨r, hr, h⟩ := techUpsert_mem tbl uid tech cat cnt t1
    exact ⟨r, hr, h.1, h.2.1⟩
  have hsvcKey : ∃ r ∈ servicesUpsert stbl uid svc rc mc t1, svcKey uid svc r := by
    obtain ⟨r, hr, h⟩ := svcUpsert_mem stbl uid svc rc mc t1
    exact ⟨r, hr, h.1, h.2.1⟩
  have htupd := techUpsert_update_of_mem cat cnt t2 htechKey
  have hsupd := svcUpsert_update_of_mem rc mc t2 hsvcKey
  refine ⟨by rw [htupd, List.length_map], ?_, by rw [hsupd, List.length_map], ?_⟩
  · rw [htupd, List.map_map]
    apply List.map_congr_left
    intro r hr
    by_cases hk : techKey uid tech r
    · have hrc : r.repo_count = cnt := techUpsert_key_count tbl uid tech cat cnt t1 r hr hk
      simp only [Function.comp_apply, if_pos hk, dropTimeTech, hrc]
    · simp only [Function.comp_apply, if_neg hk]
  · rw [hsupd, List.map_map]
    apply List.map_congr_left
    intro r hr
    by_cases hk : svcKey uid svc r
    · have hrc := svcUpsert_key_count stbl uid svc rc mc t1 r hr hk
      simp only [Function.comp_apply, if_pos hk, dropTimeSvc, hrc.1, hrc.2]
    · simp only [Function.comp_apply, if_neg hk]

theorem addTagHandler_tags_cases (db : Db) (req : AddTagRequest) :
    ∀ r ∈ ((addTagHandler db req).2).tags,
      r ∈ db.tags ∨ r.tagged_entity_type = "user" := by
  unfold addTagHandler
  split
  · exact fun r hr => Or.inl hr
  · split
    · dsimp only
      split
      · exact fun r hr => Or.inl hr
      · intro r hr
        rcases List.mem_append.mp hr with h | h
        · exact Or.inl h
        · rw [List.mem_singleton.mp h]
          exact Or.inr rfl
    · exact fun r hr => Or.inl hr

theorem removeTagHandler_tags_cases (db : Db) (req : RemoveTagRequest) :
    ∀ r ∈ ((removeTagHandler db req).2).tags, r ∈ db.tags := by
  unfold removeTagHandler
  split
  · exact fun r hr => hr
  · split
    · dsimp only
      split
      · exact fun r hr => List.mem_of_mem_filter hr
      · exact fun r hr => List.mem_of_mem_filter hr
    · exact fun r hr => hr

theorem applyUOp_tags_user (db : Db) (op : UOp)
    (h : ∀ r ∈ db.tags, r.tagged_entity_type = "user") :
    ∀ r ∈ (applyUOp db op).tags, r.tagged_entity_type = "user" := by
  cases op with
  | addTagL req =>
      intro r hr
      rcases addTagHandler_tags_cases db req r hr with hm | hu
      · exact h r hm
      · exact hu
  | removeTagL req =>
      exact fun r hr => h r (removeTagHandler_tags_cases db req r hr)
  | migrate =>
      rw [applyUOp, (migrate_keeps_legacy db).2.2.2.2.2]
      exact h
  | addTag t etype eid repo tagger => exact h
  | removeTag t etype eid repo requester => exact h
  | rename o n => exact h
  | scanTech uid tech cat cnt now => exact h
  | scanAi uid repo tool cnt now => exact h
  | scanService uid svc rc mc now => exact h

/-- C10: the sole insertion path into the free-form `tags` table (the
`/api/add-tag` INSERT) hardcodes the entity type `'user'`, so starting from
any state whose free-form tag rows are all user-entity rows (in particular
the fresh empty schema), every state reachable by the modelled operations
contains no repo-level free-form tag row: every row has
`tagged_entity_type = "user"`. -/
theorem free_form_tags_always_user (ops : List UOp) (db : Db)
    (h : ∀ r ∈ db.tags, r.tagged_entity_type = "user") :
    ∀ r ∈ (runOps ops db).tags, r.tagged_entity_type = "user" := by
  induction ops generalizing db with
  | nil => exact h
  | cons op ops ih => exact ih _ (applyUOp_tags_user db op h)

/-- Witness for C10: after bob tags alice from the empty-tag state, the row
created is a user-entity row. -/
theorem free_form_tags_always_user_witness :
    (⟨2, "user", 1, "cool"⟩ : TagRow).tagged_entity_type = "user" :=
  free_form_tags_always_user
    [UOp.addTagL ⟨some "alice", some "cool", some "bob"⟩] twoUsersExample
    (by simp [twoUsersExample]) ⟨2, "user", 1, "cool"⟩ (by decide)

end Branch
